import Mathlib

/-!
Verification of the littr.go federation adapter (src/app/frontend/repository.go)
against its natural-language specification.  The Go code is shallowly embedded:
each Go function that a claim touches is translated into an executable Lean
definition over explicit data types; network responses are supplied as explicit
environment values, and the sequence of network calls and log lines a function
emits is returned as an explicit trace.  Go runtime panics (nil dereference,
out-of-range slice index) are modelled by returning none from an Option result.
-/

namespace Littr

/-! ## Base URLs (globals of repository.go, lines 114-116) -/

/-- Global BaseURL variable default from repository.go line 114. -/
def fedboxBase : String := "http://fedbox.git"

/-- Global ActorsURL, line 115. -/
def actorsURL : String := fedboxBase ++ "/actors"

/-- Global ObjectsURL, line 116. -/
def objectsURL : String := fedboxBase ++ "/objects"

/-! ## Data model -/

/-- Fields of app.AccountMetadata used by repository.go: the federated id and
collection IRIs. -/
structure AccountMeta where
  id : String
  inboxIRI : String
  outboxIRI : String
  deriving Repr, DecidableEq

/-- app.Account as consumed by repository.go: identity hash, handle, optional
federation metadata (a nil Go pointer is none). -/
structure Account where
  hash : String
  handle : String
  metadata : Option AccountMeta
  deriving Repr, DecidableEq

/-- One entry of ItemMetadata.Mentions or ItemMetadata.Tags: a target URL and
a display name. -/
structure TagRef where
  url : String
  name : String
  deriving Repr, DecidableEq

/-- Fields of app.ItemMetadata used by repository.go: the assigned remote id
and the mention and tag lists consumed by loadAPItem. -/
structure ItemMeta where
  id : String
  mentions : List TagRef
  tags : List TagRef
  deriving Repr, DecidableEq

/-- The content kinds distinguished by the switch in loadAPItem
(app.MimeTypeURL, app.MimeTypeMarkdown, app.MimeTypeText, app.MimeTypeHTML);
other denotes any other mime type string, which matches no case. -/
inductive ContentKind where
  | url
  | markdown
  | text
  | html
  | other
  deriving Repr, DecidableEq

/-- A reference to another item (parent or thread root) as used by
BuildObjectIDFromItem: only the hash and the remote id are read. -/
structure ItemRef where
  hash : String
  metadata : Option ItemMeta
  deriving Repr, DecidableEq

/-- app.Item as consumed by loadAPItem and SaveVote. -/
structure Item where
  hash : String
  data : String
  mimeType : ContentKind
  title : String
  score : Int
  deleted : Bool
  submittedBy : Option Account
  metadata : Option ItemMeta
  parent : Option ItemRef
  op : Option ItemRef
  deriving Repr, DecidableEq

/-- app.VoteMetadata: iri is the remote activity id of the vote, originalIri
the id of the activity a retraction undoes. -/
structure VoteMeta where
  iri : String
  originalIri : String
  deriving Repr, DecidableEq

/-- app.Vote: weight, submitter, item, metadata; Go nil pointers are none. -/
structure Vote where
  weight : Int
  submittedBy : Option Account
  item : Option Item
  metadata : Option VoteMeta
  deriving Repr, DecidableEq

/-- The zero value app.Vote returned on validation failure and used as the
default for the existence check. -/
def zeroVote : Vote := { weight := 0, submittedBy := none, item := none, metadata := none }

/-! ## Error model (go-ap/errors as used by repository.go) -/

/-- One entry of the wire error envelope (errors.Http): code and message. -/
structure HttpErr where
  code : Nat
  message : String
  deriving Repr, DecidableEq

/-- The domain errors repository.go produces: local validation errors
(errors.Newf before any network call), transport errors, and the
status-carrying errors built by errors.WrapWithStatus. -/
inductive RepoErr where
  | validation (msg : String)
  | transport (msg : String)
  | withStatus (code : Nat) (msg : String)
  deriving Repr, DecidableEq

/-! ## Error Translator: handlerErrorResponse (repository.go lines 994-1005)

The jsonld unmarshalling of the response body is supplied as an already
parsed value: none when j.Unmarshal fails, some the listed errors otherwise.
The Bool result records whether the function wrote a log line. -/

/-- handlerErrorResponse: a body that fails to unmarshal is logged and nil is
returned; an envelope with no errors returns nil; otherwise a status-carrying
error is built from the first listed error. -/
def handlerErrorResponse (parsed : Option (List HttpErr)) : Option RepoErr × Bool :=
  match parsed with
  | none => (none, true)
  | some [] => (none, false)
  | some (e :: _) => (some (RepoErr.withStatus e.code e.message), false)

/-! ## loadVotesCollection fold (repository.go lines 828-841)

The Go loop scans the accumulated votes for a cursor with the same submitter
hash; every matching cursor gets the weight added (the inner loop continues,
it does not break) and the record is skipped, otherwise the record is
appended.  Reading vot.SubmittedBy.Hash dereferences a possibly nil pointer:
a record without a submitter makes the Go program panic, modelled as none. -/

/-- One inner pass: add weight w to every accumulated vote whose submitter
hash equals h, reporting whether any matched.  A cursor with a nil submitter
panics in Go (cursor.SubmittedBy.Hash); cursors in the accumulator always
carry a submitter, but the model keeps the panic case faithful. -/
def addToMatching (h : String) (w : Int) : List Vote → Option (List Vote × Bool)
  | [] => some ([], false)
  | cursor :: rest =>
    match cursor.submittedBy with
    | none => none
    | some ca =>
      match addToMatching h w rest with
      | none => none
      | some (rest2, found) =>
        if ca.hash = h then
          some ({ cursor with weight := cursor.weight + w } :: rest2, true)
        else
          some (cursor :: rest2, found)

/-- The dedup loop of loadVotesCollection processing raw records in order
against an accumulator.  vot.SubmittedBy.Hash panics when the submitter is
nil. -/
def loadVotesCollectionFoldAux : List Vote → List Vote → Option (List Vote)
  | acc, [] => some acc
  | acc, vot :: rest =>
    match vot.submittedBy with
    | none => none
    | some a =>
      match addToMatching a.hash vot.weight acc with
      | none => none
      | some (acc2, found) =>
        loadVotesCollectionFoldAux (if found then acc2 else acc2 ++ [vot]) rest

/-- The fold-by-actor dedup of loadVotesCollection lines 828-841: collapse raw
activity records into one net record per submitting actor. -/
def loadVotesCollectionFold (allVotes : List Vote) : Option (List Vote) :=
  loadVotesCollectionFoldAux [] allVotes

/-! ## Identifier builders (repository.go lines 107-144) -/

/-- The fixed ActivityStreams public namespace IRI (as.PublicNS). -/
def publicNS : String := "https://www.w3.org/ns/activitystreams#Public"

/-- Modelled from the spec: app.Anonymous, the handle of the synthetic
anonymous account, is defined in the app package, which is not under src/;
the spec calls it the anonymous sentinel actor. -/
def anonymousHandle : String := "anonymous"

/-- Modelled from the spec: app.AnonymousAccount (app package, not under
src/) is the synthetic anonymous account with no hash and no federation
metadata. -/
def anonymousAccount : Account :=
  { hash := "", handle := anonymousHandle, metadata := none }

/-- Go url.PathEscape from the standard library; on the hash strings the
claims exercise (alphanumeric) it is the identity, which is how it is
modelled here. -/
def pathEscape (s : String) : String := s

/-- The hash-plus-remote-id view of an Item that BuildObjectIDFromItem reads. -/
def Item.ref (i : Item) : ItemRef := { hash := i.hash, metadata := i.metadata }

/-- BuildObjectIDFromItem (lines 129-137): no identifier for an empty hash;
an already assigned remote id is returned unchanged; otherwise the id is
derived under the objects base URL. -/
def buildObjectIDFromItem (i : ItemRef) : Option String :=
  if i.hash = "" then none
  else
    match i.metadata with
    | some m => if m.id ≠ "" then some m.id else some (objectsURL ++ "/" ++ pathEscape i.hash)
    | none => some (objectsURL ++ "/" ++ pathEscape i.hash)

/-- BuildActorID (lines 139-144): the anonymous handle maps to the public
namespace id, everything else to the actors base URL plus the escaped hash. -/
def buildActorID (a : Account) : String :=
  if a.handle = anonymousHandle then publicNS
  else actorsURL ++ "/" ++ pathEscape a.hash

/-! ## Wire object model -/

/-- The ActivityStreams types repository.go assigns (as.PageType and so on);
unset is the zero value of the Type field. -/
inductive APType where
  | unset
  | page
  | article
  | note
  | tombstone
  | mention
  | like
  | dislike
  | undo
  | create
  | audio
  | document
  | image
  | video
  deriving Repr, DecidableEq

/-- A tag sub-object built by loadAPItem: mention entries carry MentionType,
plain tag entries leave the type unset. -/
structure APTag where
  id : String
  type : APType
  name : String
  deriving Repr, DecidableEq

/-- The wire object assembled by loadAPItem.  NaturalLanguageValues fields
(content, source content, name) are modelled as Option String: none means the
field was never set.  Timestamp fields (Published, Updated, the Deleted time
of a tombstone) carry no claim-relevant structure and are omitted. -/
structure APObject where
  id : String
  type : APType
  url : String
  mediaType : String
  sourceMediaType : String
  content : Option String
  sourceContent : Option String
  name : Option String
  score : Int
  attributedTo : String
  inReplyTo : List String
  context : String
  recipients : List String
  formerType : APType
  tag : List APTag
  deriving Repr, DecidableEq

/-- The zero wire object (local.Object literal at line 147). -/
def emptyAPObject : APObject :=
  { id := "", type := APType.unset, url := "", mediaType := "", sourceMediaType := ""
    content := none, sourceContent := none, name := none, score := 0, attributedTo := ""
    inReplyTo := [], context := "", recipients := [], formerType := APType.unset, tag := [] }

/-! ## Word counting in loadAPItem (lines 156-159)

strings.Count over the raw item data for the four separator strings; the
count of a CRLF pair is non-overlapping, and each CRLF is also counted once
by the lone newline count. -/

/-- Occurrences of one character in a character list. -/
def countChar (c : Char) : List Char → Nat
  | [] => 0
  | x :: xs => (if x = c then 1 else 0) + countChar c xs

/-- Non-overlapping occurrences of the two-character CRLF sequence. -/
def countCRLF : List Char → Nat
  | [] => 0
  | [_] => 0
  | x :: y :: xs =>
    if x = '\r' ∧ y = '\n' then 1 + countCRLF xs else countCRLF (y :: xs)

/-- The wordCount computed at lines 156-159: spaces plus tabs plus newlines
plus CRLF pairs in the raw data. -/
def wordCount (s : String) : Nat :=
  countChar ' ' s.data + countChar '\t' s.data + countChar '\n' s.data + countCRLF s.data

/-- Written from the claim wording, for comparison with wordCount: the number
of whitespace-separated tokens of a string, that is the number of maximal
runs of non-whitespace characters.  The flag records whether the scan stands
inside a token. -/
def wsTokensAux : Bool → List Char → Nat
  | _, [] => 0
  | inTok, c :: cs =>
    if c = ' ' ∨ c = '\t' ∨ c = '\n' ∨ c = '\r' then wsTokensAux false cs
    else (if inTok then 0 else 1) + wsTokensAux true cs

/-- Written from the claim wording: whitespace-separated token count. -/
def wsTokens (s : String) : Nat := wsTokensAux false s.data

/-! ## Domain to protocol mapper: loadAPItem (lines 146-275) -/

/-- Modelled from the spec: the mime type strings of the app package constants
(plain, markdown, HTML content kinds) as assigned by loadAPItem into the
MediaType fields; the app package is not under src/. -/
def contentKindMime : ContentKind → String
  | ContentKind.url => "application/url"
  | ContentKind.markdown => "text/markdown"
  | ContentKind.text => "text/plain"
  | ContentKind.html => "text/html"
  | ContentKind.other => "application/octet-stream"

/-- Modelled from the spec: app.ScoreMultiplier, the fixed score
normalization multiplier of the app package (not under src/); the claims do
not depend on its value. -/
def scoreMultiplier : Int := 10000

/-- Modelled from the spec: ItemPermaLink of the frontend package (not under
src/) derives the local permalink of an item from its hash. -/
def itemPermaLink (i : Item) : String := "/i/" ++ i.hash

/-- The tag conversion block of loadAPItem (lines 252-272): mentions become
Mention-typed tag objects, plain tags keep an unset type. -/
def loadAPItemTags (m : ItemMeta) : List APTag :=
  (m.mentions.map fun men => { id := men.url, type := APType.mention, name := men.name })
    ++ (m.tags.map fun tag => { id := tag.url, type := APType.unset, name := tag.name })

/-- The identifier, classification and content assignments of loadAPItem
(lines 147-192): the object id, the Page branch for URL content, the
Article or Note classification by wordCount over the raw data, the local
permalink, the content and source content of the mime switch, and the
recipient list. -/
def loadAPItemBase (render : String → String) (item : Item) : APObject :=
  let o := emptyAPObject
  let o :=
    match buildObjectIDFromItem item.ref with
    | some theId => { o with id := theId }
    | none => o
  let o :=
    if item.mimeType = ContentKind.url then
      { o with type := APType.page, url := item.data }
    else
      let o := { o with type := if wordCount item.data > 300 then APType.article else APType.note }
      let o := if item.hash ≠ "" then { o with url := itemPermaLink item } else o
      match item.mimeType with
      | ContentKind.markdown =>
        let o := { o with sourceMediaType := contentKindMime ContentKind.markdown
                          mediaType := contentKindMime ContentKind.html }
        if item.data ≠ "" then
          { o with sourceContent := some item.data, content := some (render item.data) }
        else o
      | ContentKind.text =>
        { o with mediaType := contentKindMime ContentKind.text, content := some item.data }
      | ContentKind.html =>
        { o with mediaType := contentKindMime ContentKind.html, content := some item.data }
      | _ => o
  { o with recipients := [publicNS, fedboxBase] }

/-- The tombstone branch of loadAPItem (lines 194-222): a fresh wire object
keeping the id and the former type, with the reply chain from the parent and
the thread context from the root when present. -/
def loadAPItemTombstone (o : APObject) (item : Item) : APObject :=
  let del : APObject :=
    { emptyAPObject with id := o.id, type := APType.tombstone, formerType := o.type }
  if item.parent.isSome ∨ item.op.isSome then
    let repl :=
      match item.parent with
      | some par =>
        match buildObjectIDFromItem par with
        | some pid => [pid]
        | none => []
      | none => []
    let del :=
      match item.op with
      | some opRef =>
        match buildObjectIDFromItem opRef with
        | some opid => { del with context := opid }
        | none => del
      | none => del
    if repl ≠ [] then { del with inReplyTo := repl } else del
  else del

/-- The live enrichment of loadAPItem (lines 224-274): normalized score,
title, attribution, reply chain, thread context and tags added onto the base
object. -/
def loadAPItemLive (o : APObject) (item : Item) : APObject :=
  let o := { o with score := Int.tdiv item.score scoreMultiplier }
  let o := if item.title ≠ "" then { o with name := some item.title } else o
  let o :=
    match item.submittedBy with
    | some sb => { o with attributedTo := buildActorID sb }
    | none => o
  let o :=
    match item.parent with
    | some par =>
      match buildObjectIDFromItem par with
      | some pid => { o with inReplyTo := [pid] }
      | none => o
    | none => o
  let o :=
    match item.op with
    | some opRef =>
      match buildObjectIDFromItem opRef with
      | some opid => { o with context := opid }
      | none => o
    | none => o
  match item.metadata with
  | some m => if m.mentions ≠ [] ∨ m.tags ≠ [] then { o with tag := loadAPItemTags m } else o
  | none => o

/-- loadAPItem (lines 146-275), parameterized by the markdown renderer
(app.Markdown, not under src/): the base assignments, then the tombstone
branch for deleted items or the live enrichment otherwise. -/
def loadAPItem (render : String → String) (item : Item) : APObject :=
  let o := loadAPItemBase render item
  if item.deleted then loadAPItemTombstone o item else loadAPItemLive o item

/-! ## Collection loader target resolution: LoadItems (lines 597-655)

The query string marshals the whole filter value, so the request is modelled
as the target path together with the final filter record.  The reply and
context handling at lines 611-624 and the Create restriction at lines 645-651
are commented out in the source and therefore absent here. -/

/-- The filter fields of app.Filters that the live LoadItems code reads or
writes, plus the reply and context filters that marshal into the query. -/
structure ItemFilters where
  followedBy : List String
  federated : List Bool
  deleted : List Bool
  itemType : List APType
  context : List String
  inReplyTo : List String
  iri : String
  deriving Repr, DecidableEq

/-- LoadItems request construction (lines 597-655): default target is the
global objects collection; a followed-by filter retargets to the first such
actor and the inbox collection and clears itself; a false federated entry
pins the filter IRI to the base URL; a deleted filter restricts the type
filter to the object types.  Returns the request path and the filter record
that marshals into the query string. -/
def loadItemsRequest (rBase : String) (f : ItemFilters) : String × ItemFilters :=
  let tcf :=
    match f.followedBy with
    | [] => ("/", "objects", f)
    | foll :: _ => ("/actors/" ++ foll ++ "/", "inbox", { f with followedBy := [] })
  let f1 := tcf.2.2
  let f2 := if f1.federated.any (fun fed => fed = false) then { f1 with iri := fedboxBase } else f1
  let f3 :=
    if f2.deleted ≠ [] then
      { f2 with itemType := [APType.article, APType.audio, APType.document, APType.image,
                             APType.note, APType.page, APType.video] }
    else f2
  (rBase ++ tcf.1 ++ tcf.2.1, f3)

/-! ## Vote reconciliation in LoadVotes (lines 896-937)

The fetched collection is split into nonzero votes and zero-weight undo
records; each undo then removes matching votes.  The Go removal loop ranges
over the votes slice while reassigning it through
append(votes[:i], votes[i+1:]...): the range length and the underlying array
are fixed at loop entry, a removal shifts the elements left of the array and
leaves the former last element duplicated in the stale tail, and a removal
index beyond the current length is a slice-bounds panic.  The model keeps
the full fixed-length array, the visible length l, and the iteration index i
with fuel equal to the remaining iterations. -/

/-- The match test of the removal loop (lines 925-929): a vote with no
metadata or an empty activity iri is skipped; otherwise its iri is compared
with the undo target. -/
def undoTargets (target : String) (vot : Vote) : Bool :=
  match vot.metadata with
  | none => false
  | some m => !(m.iri == "") && m.iri == target

/-- Effect of append(votes[:i], votes[i+1:]...) on the fixed underlying
array: elements after i shift left and the former last element stays in the
stale tail position. -/
def shiftRemove (arr : List Vote) (i : Nat) : List Vote :=
  arr.take i ++ arr.drop (i + 1) ++ arr.getLast?.toList

/-- The removal loop of lines 924-932 for one undo target: iterate over the
fixed entry length, reading the possibly shifted array; a match at an index
within the visible length removes the element, a match in the stale tail
(index at or beyond the visible length) is the slice-bounds panic of
votes[i+1:], modelled as none. -/
def undoLoopAux (target : String) : Nat → List Vote → Nat → Nat → Option (List Vote)
  | 0, arr, l, _ => some (arr.take l)
  | fuel + 1, arr, l, i =>
    match arr[i]? with
    | none => some (arr.take l)
    | some vot =>
      if undoTargets target vot then
        if i + 1 ≤ l then
          undoLoopAux target fuel (shiftRemove arr i) (l - 1) (i + 1)
        else none
      else undoLoopAux target fuel arr l (i + 1)

/-- Apply one undo record to the vote list (lines 919-932): an undo without
metadata or without an original iri is skipped. -/
def applyUndo (votes : List Vote) (undo : Vote) : Option (List Vote) :=
  match undo.metadata with
  | none => some votes
  | some m =>
    if m.originalIri = "" then some votes
    else undoLoopAux m.originalIri votes.length votes votes.length 0

/-- The first phase of LoadVotes (lines 901-918): nonzero-weight records are
collected in order as open votes; zero-weight records without an original
activity reference are logged and dropped; the rest are the undo records. -/
def loadVotesPartition : List Vote → List Vote × List Vote
  | [] => ([], [])
  | vot :: rest =>
    let p := loadVotesPartition rest
    if vot.weight ≠ 0 then (vot :: p.1, p.2)
    else
      match vot.metadata with
      | none => p
      | some m => if m.originalIri = "" then p else (p.1, vot :: p.2)

/-- The reconciliation of LoadVotes (lines 896-937) on the decoded records of
one fetched collection: partition, then apply every undo in order; none is a
Go panic in the removal loop. -/
def loadVotesReconcile (records : List Vote) : Option (List Vote) :=
  let p := loadVotesPartition records
  p.2.foldlM applyUndo p.1

/-! ## LoadItem versus LoadVote key handling (lines 433-444 and 944-951) -/

/-- LoadItem takes the filter key list and builds the request URL from its
first element with no emptiness check (hashes[0], line 444); an empty list is
an out-of-range slice index, a Go panic, modelled as none. -/
def loadItemRequestURL (base : String) (keys : List String) : Option String :=
  match keys with
  | [] => none
  | h :: _ => some (base ++ "/objects/" ++ h)

/-- LoadVote guards the item key list (lines 945-947): an empty list returns
the local error message before any indexing, otherwise the single vote lookup
URL is built from the first key. -/
def loadVoteRequest (base : String) (itemKeys : List String) : Except String String :=
  match itemKeys with
  | [] => Except.error "invalid item hash"
  | h :: _ => Except.ok (base ++ "/liked/" ++ h)

/-! ## Actor link fields of loadAPPerson (lines 277-373)

SaveVote reads only the id and the outbox link of the person it builds; the
model keeps those and the inbox. -/

/-- The link fields of an auth.Person that SaveVote and SaveItem read. -/
structure Person where
  id : String
  inbox : String
  outbox : String
  deriving Repr, DecidableEq

/-- Modelled from the spec: app.Account.IsFederated (app package, not under
src/); federated accounts are those carrying a remote id in their metadata. -/
def isFederated (a : Account) : Bool :=
  match a.metadata with
  | some m => m.id ≠ ""
  | none => false

/-- apAccountID (lines 118-123): actors base plus hash for hashes of at least
eight characters, the anonymous actor id otherwise. -/
def apAccountID (a : Account) : String :=
  if a.hash.length ≥ 8 then actorsURL ++ "/" ++ a.hash
  else actorsURL ++ "/anonymous"

/-- BuildCollectionID (lines 107-112) specialized to a collection kind label:
accounts with a handle get the collection under their actor id, otherwise the
collection sits at the base URL. -/
def buildCollectionID (a : Account) (kind : String) : String :=
  if a.handle ≠ "" then actorsURL ++ "/" ++ pathEscape a.hash ++ "/" ++ kind
  else fedboxBase ++ "/" ++ kind

/-- The id, inbox and outbox assignments of loadAPPerson (lines 294-362):
federated accounts pass their stored IRIs through, local accounts synthesize
collection ids; a hash of at least eight characters overrides the id with
apAccountID; an account without a hash leaves all three unset. -/
def loadAPPersonLinks (a : Account) : Person :=
  if a.hash ≠ "" then
    let base : Person :=
      if isFederated a then
        { id := (a.metadata.map AccountMeta.id).getD ""
          inbox := (a.metadata.map AccountMeta.inboxIRI).getD ""
          outbox := (a.metadata.map AccountMeta.outboxIRI).getD "" }
      else
        { id := ""
          inbox := buildCollectionID a "inbox"
          outbox := buildCollectionID a "outbox" }
    if a.hash.length ≥ 8 then { base with id := apAccountID a } else base
  else { id := "", inbox := "", outbox := "" }

/-! ## SaveVote (lines 712-808)

The network responses are supplied through an environment value; the calls
and log lines SaveVote performs are returned as a trace, and a Go panic
(nil response body, nil pointer dereference inside loadVotesCollection) is
the none result. -/

/-- The activity value SaveVote assembles (lines 752-759 and 779-786): the id
is never assigned, the type starts as Undo, the recipients are the public
namespace and the base URL, the object starts as the iri taken from the
metadata of the vote being saved. -/
structure Activity where
  id : String
  type : APType
  recipients : List String
  actor : String
  objectIri : String
  deriving Repr, DecidableEq

/-- The trace of remote calls and log lines a repository method emits. -/
inductive NetEvent where
  | get (url : String)
  | post (url : String) (act : Activity)
  | logWarn (msg : String)
  | logError (msg : String)
  deriving Repr, DecidableEq

/-- The remote responses SaveVote observes: the decoded likes collection
(none when LoadIRI fails), the status of the undo POST (none when the POST
itself fails, which makes the later body read panic), the status of the
final POST (none when it fails), the error-envelope parse of the final
response body, and the activity parse of the final response body (the
canonical server representation; the code never reads it, it exists for
comparison with the specified behaviour). -/
structure SaveVoteEnv where
  likesResp : Option (List Vote)
  undoStatus : Option Nat
  finalStatus : Option Nat
  finalErrs : Option (List HttpErr)
  finalAct : Option Activity
  deriving Repr, DecidableEq

/-- The existence check of lines 736-745: the first folded vote whose
submitter hash equals the saving submitter hash, defaulting to the zero
vote. -/
def findExistingVote (itemVotes : List Vote) (h : String) : Vote :=
  match itemVotes.find? (fun vot =>
      match vot.submittedBy with
      | some a => a.hash == h
      | none => false) with
  | some v => v
  | none => zeroVote

/-- The weight branches of lines 779-786: a positive new weight against a
non-positive existing weight turns the activity into a Like on the item
object link, a negative new weight against a non-negative existing weight
into a Dislike; otherwise the activity is left as the Undo built before. -/
def saveVoteFinalAct (undoAct : Activity) (objLink : String) (newW existingW : Int) : Activity :=
  let a := undoAct
  let a :=
    if newW > 0 ∧ existingW ≤ 0 then { a with type := APType.like, objectIri := objLink }
    else a
  if newW < 0 ∧ existingW ≥ 0 then { a with type := APType.dislike, objectIri := objLink }
  else a

/-- Modelled from the spec: app.Vote.FromActivityPub (app package, not under
src/).  Per the spec the reconstruction derives the weight sign from the
activity type (Like positive, Dislike negative, zero otherwise) and assigns
the activity id into the vote metadata; an Undo carries the undone activity
id as the original iri. -/
def voteFromActivityPub (a : Activity) : Vote :=
  { weight :=
      match a.type with
      | APType.like => 1
      | APType.dislike => -1
      | _ => 0
    submittedBy := none
    item := none
    metadata := some
      { iri := a.id
        originalIri := if a.type = APType.undo then a.objectIri else "" } }

/-- The result of SaveVote: the emitted trace, the returned vote and the
returned error (none models the nil Go error). -/
structure SaveVoteOut where
  trace : List NetEvent
  vote : Vote
  err : Option RepoErr
  deriving Repr, DecidableEq

/-- The acting person of SaveVote (lines 719-724): the submitter when the
repository account matches the submitter hash, otherwise the anonymous
account person. -/
def saveVotePerson (racc : Option Account) (sb : Account) : Person :=
  if (match racc with
      | some ra => ra.hash == sb.hash
      | none => false) then
    loadAPPersonLinks sb
  else loadAPPersonLinks anonymousAccount

/-- The Undo activity SaveVote assembles (lines 747-759): no id, Undo type,
public recipients, the acting person as actor and the iri taken from the
metadata of the vote being saved as object. -/
def saveVoteUndoAct (racc : Option Account) (v : Vote) (sb : Account) : Activity :=
  { id := ""
    type := APType.undo
    recipients := [publicNS, fedboxBase]
    actor := (saveVotePerson racc sb).id
    objectIri := (v.metadata.map VoteMeta.iri).getD "" }

/-- The body of SaveVote after validation (lines 719-807): select the acting
person, fetch and fold the item likes collection, find the existing net vote
of the submitter, post an Undo when one exists (logging an error exactly
when that POST reports 200 or 201), then post the final activity and decode
the response: 200 or 201 reconstructs the vote from the locally built
activity, anything else goes through the error translator. -/
def saveVoteMain (render : String → String) (env : SaveVoteEnv) (racc : Option Account)
    (v : Vote) (sb : Account) (it : Item) (im : ItemMeta) : Option SaveVoteOut :=
  let p := saveVotePerson racc sb
  let likesURL := im.id ++ "/likes"
  let itemVotesOpt : Option (List Vote) :=
    match env.likesResp with
    | none => some []
    | some raw => loadVotesCollectionFold raw
  let trace0 : List NetEvent :=
    match env.likesResp with
    | none => [NetEvent.get likesURL, NetEvent.logWarn "loadVotesCollection failed"]
    | some _ => [NetEvent.get likesURL]
  match itemVotesOpt with
  | none => none
  | some itemVotes =>
    let ex := findExistingVote itemVotes sb.hash
    let undoAct := saveVoteUndoAct racc v sb
    let undoStep : Option (List NetEvent) :=
      if ex.metadata.isSome then
        match env.undoStatus with
        | none => none
        | some st =>
          if st = 200 ∨ st = 201 then
            some [NetEvent.post p.outbox undoAct, NetEvent.logError "unable to undo previous vote"]
          else
            some [NetEvent.post p.outbox undoAct]
      else some []
    match undoStep with
    | none => none
    | some trace1 =>
      let act := saveVoteFinalAct undoAct (loadAPItem render it).id v.weight ex.weight
      let fullTrace := trace0 ++ trace1 ++ [NetEvent.post p.outbox act]
      let fin : Vote × Option RepoErr :=
        match env.finalStatus with
        | none => (v, some (RepoErr.transport "post failed"))
        | some st =>
          if st = 200 ∨ st = 201 then (voteFromActivityPub act, none)
          else (v, (handlerErrorResponse env.finalErrs).1)
      some { trace := fullTrace, vote := fin.1, err := fin.2 }

/-- SaveVote (lines 712-808): validation of the submitter and the item first
(lines 713-718), returning the zero vote and a local error with no network
event; then the main body. -/
def saveVote (render : String → String) (env : SaveVoteEnv) (racc : Option Account)
    (v : Vote) : Option SaveVoteOut :=
  match v.submittedBy with
  | none => some { trace := [], vote := zeroVote, err := some (RepoErr.validation "Invalid vote submitter") }
  | some sb =>
    match sb.metadata with
    | none => some { trace := [], vote := zeroVote, err := some (RepoErr.validation "Invalid vote submitter") }
    | some _ =>
      match v.item with
      | none => some { trace := [], vote := zeroVote, err := some (RepoErr.validation "Invalid vote item") }
      | some it =>
        match it.metadata with
        | none => some { trace := [], vote := zeroVote, err := some (RepoErr.validation "Invalid vote item") }
        | some im => saveVoteMain render env racc v sb it im

/-- The net effective vote SaveVote finds for a submitter hash: the fold of
the fetched likes collection filtered to the first record of that submitter
(the empty collection when the fetch failed). -/
def saveVoteExistingFor (env : SaveVoteEnv) (h : String) : Vote :=
  findExistingVote
    (match env.likesResp with
     | none => []
     | some raw => (loadVotesCollectionFold raw).getD []) h

/-- Written from the claim wording, for comparison with saveVote: the vote
the claim expects on a 200 or 201 response, reconstructed from the activity
parse of the response body, the canonical server representation carrying the
server-assigned activity id. -/
def specSaveVoteSuccess (env : SaveVoteEnv) : Option Vote :=
  env.finalAct.map voteFromActivityPub

/-! ## Concrete fixtures used by counterexamples and witnesses -/

/-- The identity markdown renderer used to instantiate the render parameter. -/
def idRender : String → String := fun s => s

/-- A local submitter account with an eight character hash. -/
def subA : Account :=
  { hash := "aaaabbbb", handle := "alice"
    metadata := some { id := "", inboxIRI := "", outboxIRI := "" } }

/-- The outbox link loadAPPersonLinks derives for subA. -/
def outboxA : String := "http://fedbox.git/actors/aaaabbbb/outbox"

/-- A federated item with an assigned remote id. -/
def itemA : Item :=
  { hash := "itemhash", data := "hello", mimeType := ContentKind.text, title := ""
    score := 0, deleted := false, submittedBy := some subA
    metadata := some { id := "http://fedbox.git/objects/itemhash", mentions := [], tags := [] }
    parent := none, op := none }

/-- The likes sub-collection URL SaveVote builds for itemA. -/
def likesA : String := "http://fedbox.git/objects/itemhash/likes"

/-- An upvote on itemA by subA with no metadata. -/
def voteA : Vote :=
  { weight := 1, submittedBy := some subA, item := some itemA, metadata := none }

/-- Environment for the C1 counterexample: empty likes collection, final POST
answered 200 with a body whose canonical activity carries a server id. -/
def envC1 : SaveVoteEnv :=
  { likesResp := some [], undoStatus := none, finalStatus := some 200, finalErrs := none
    finalAct := some { id := "http://fedbox.git/activities/42", type := APType.like
                       recipients := [], actor := "", objectIri := "" } }

/-- The Like activity SaveVote posts for voteA against an empty collection. -/
def likeActA : Activity :=
  { id := "", type := APType.like, recipients := [publicNS, fedboxBase]
    actor := "http://fedbox.git/actors/aaaabbbb"
    objectIri := "http://fedbox.git/objects/itemhash" }

/-- An existing folded upvote of subA with a stored activity id. -/
def exVote : Vote :=
  { weight := 1, submittedBy := some subA, item := none
    metadata := some { iri := "http://fedbox.git/activities/7", originalIri := "" } }

/-- A sign-flipping downvote by subA whose own metadata carries a fresh iri
distinct from the stored activity id of exVote. -/
def v3 : Vote :=
  { weight := -1, submittedBy := some subA, item := some itemA
    metadata := some { iri := "new-vote-iri", originalIri := "" } }

/-- Environment where the undo POST is rejected with 403. -/
def env3r : SaveVoteEnv :=
  { likesResp := some [exVote], undoStatus := some 403, finalStatus := some 200
    finalErrs := none, finalAct := none }

/-- Environment where the undo POST is accepted with 200. -/
def env3s : SaveVoteEnv :=
  { likesResp := some [exVote], undoStatus := some 200, finalStatus := some 200
    finalErrs := none, finalAct := none }

/-- The Undo activity SaveVote builds while saving v3. -/
def undoAct3 : Activity :=
  { id := "", type := APType.undo, recipients := [publicNS, fedboxBase]
    actor := "http://fedbox.git/actors/aaaabbbb", objectIri := "new-vote-iri" }

/-- The Dislike activity SaveVote posts after the undo while saving v3. -/
def dislikeAct3 : Activity :=
  { undoAct3 with type := APType.dislike, objectIri := "http://fedbox.git/objects/itemhash" }

/-- An item whose metadata record is present but whose remote id is empty. -/
def item4 : Item :=
  { itemA with metadata := some { id := "", mentions := [], tags := [] } }

/-- An upvote on item4 by subA. -/
def v4 : Vote :=
  { weight := 1, submittedBy := some subA, item := some item4, metadata := none }

/-- Environment for the C4 counterexample: empty likes collection, final POST
answered 200. -/
def env4 : SaveVoteEnv :=
  { likesResp := some [], undoStatus := none, finalStatus := some 200, finalErrs := none
    finalAct := none }

/-- The Like activity SaveVote posts while saving v4: the object link falls
back to the objects base URL because the remote id of item4 is empty. -/
def likeAct4 : Activity :=
  { id := "", type := APType.like, recipients := [publicNS, fedboxBase]
    actor := "http://fedbox.git/actors/aaaabbbb"
    objectIri := "http://fedbox.git/objects/itemhash" }

/-- A nonzero vote record with a stored activity id, used as the Like of the
C5 scenario. -/
def likeC5 : Vote :=
  { weight := 1, submittedBy := some subA, item := none
    metadata := some { iri := "like-1", originalIri := "" } }

/-- A zero-weight undo record targeting the activity id of likeC5. -/
def undoC5 : Vote :=
  { weight := 0, submittedBy := some subA, item := none
    metadata := some { iri := "", originalIri := "like-1" } }

/-- A second submitter account. -/
def subB : Account :=
  { hash := "ccccdddd", handle := "bob", metadata := some { id := "", inboxIRI := "", outboxIRI := "" } }

/-- A nonzero vote record of subB with an unrelated activity id. -/
def likeOtherB : Vote :=
  { weight := -1, submittedBy := some subB, item := none
    metadata := some { iri := "like-2", originalIri := "" } }

/-- The characters of a plain text body of n+1 single-character tokens
separated by n single spaces. -/
def c8chars : Nat → List Char
  | 0 => ['a']
  | n + 1 => 'a' :: ' ' :: c8chars n

/-- A plain text body of 301 whitespace-separated tokens containing exactly
300 spaces. -/
def c8data : String := String.mk (c8chars 300)

/-- A plain text item whose body holds 301 whitespace-separated tokens. -/
def c8item : Item :=
  { hash := "texthash", data := c8data, mimeType := ContentKind.text, title := ""
    score := 0, deleted := false, submittedBy := none
    metadata := none, parent := none, op := none }

/-- A filter set carrying a followed-by filter together with reply and
context filters. -/
def f9 : ItemFilters :=
  { followedBy := ["abc"], federated := [], deleted := [], itemType := []
    context := ["ctx1"], inReplyTo := ["r1"], iri := "" }

/-- The output SaveVote produces for voteA under envC1: one GET, one Like
POST, and a vote reconstructed from the local activity with an empty iri. -/
def outC1 : SaveVoteOut :=
  { trace := [NetEvent.get likesA, NetEvent.post outboxA likeActA]
    vote := { weight := 1, submittedBy := none, item := none
              metadata := some { iri := "", originalIri := "" } }
    err := none }

/-- The output SaveVote produces for v4 under env4. -/
def out4 : SaveVoteOut :=
  { trace := [NetEvent.get "/likes", NetEvent.post outboxA likeAct4]
    vote := { weight := 1, submittedBy := none, item := none
              metadata := some { iri := "", originalIri := "" } }
    err := none }

/-! ## Theorems -/

/-- The live enrichment never touches the type, url, content or source
content of the base object. -/
theorem loadAPItemLive_preserves (o : APObject) (item : Item) :
    (loadAPItemLive o item).type = o.type ∧ (loadAPItemLive o item).url = o.url ∧
    (loadAPItemLive o item).content = o.content ∧
    (loadAPItemLive o item).sourceContent = o.sourceContent := by
  unfold loadAPItemLive
  repeat' split
  all_goals simp

/-- C10: LoadItem builds its request from the first filter key with no
emptiness check, so it is total only when a key is supplied and an empty
key list is an out-of-range slice access rather than a validation error,
while LoadVote rejects an empty item key list with a local error before any
indexing. -/
theorem c10_loadItem_unchecked_first_key (base : String) :
    loadItemRequestURL base [] = none ∧
    (∀ (k : String) (ks : List String),
      loadItemRequestURL base (k :: ks) = some (base ++ "/objects/" ++ k)) ∧
    loadVoteRequest base [] = Except.error "invalid item hash" ∧
    (∀ (k : String) (ks : List String),
      loadVoteRequest base (k :: ks) = Except.ok (base ++ "/liked/" ++ k)) :=
  ⟨rfl, fun _ _ => rfl, rfl, fun _ _ => rfl⟩

/-- C7 counterexample: a response body that fails to parse as the error
envelope makes the error translator log and return the nil error, not a
generic transport error. -/
theorem c7_parse_failure_yields_nil : handlerErrorResponse none = (none, true) := rfl

/-- C7 (amended): an envelope listing at least one error yields the
status-carrying domain error built from the first listed code and message;
a body that fails to parse is logged and nil is returned instead of a
transport error; an envelope listing no errors also returns nil. -/
theorem c7_error_translator :
    (∀ (e : HttpErr) (rest : List HttpErr),
      handlerErrorResponse (some (e :: rest)) = (some (RepoErr.withStatus e.code e.message), false)) ∧
    handlerErrorResponse none = (none, true) ∧
    handlerErrorResponse (some []) = (none, false) :=
  ⟨fun _ _ => rfl, rfl, rfl⟩

/-- C9 counterexample: a followed-by filter retargets to the inbox of that
actor, but the final filter record restricts nothing to Create-typed
activities and keeps the reply and context filters, which marshal into the
query string unchanged. -/
theorem c9_counterexample :
    (loadItemsRequest fedboxBase f9).1 = "http://fedbox.git/actors/abc/inbox" ∧
    (loadItemsRequest fedboxBase f9).2.itemType = [] ∧
    (loadItemsRequest fedboxBase f9).2.context = ["ctx1"] ∧
    (loadItemsRequest fedboxBase f9).2.inReplyTo = ["r1"] := by
  refine ⟨?_, rfl, rfl, rfl⟩
  decide

/-- C9 (amended): a followed-by filter retargets the request to the inbox of
the first followed-by actor and clears the followed-by filter itself; the
type filter is not restricted to Create (it changes only through the deleted
filter) and the reply and context filters stay untouched. -/
theorem c9_followed_by_retarget (rBase : String) (f : ItemFilters) (x : String)
    (rest : List String) (hfb : f.followedBy = x :: rest) :
    (loadItemsRequest rBase f).1 = rBase ++ ("/actors/" ++ x ++ "/") ++ "inbox" ∧
    (loadItemsRequest rBase f).2.followedBy = [] ∧
    (loadItemsRequest rBase f).2.context = f.context ∧
    (loadItemsRequest rBase f).2.inReplyTo = f.inReplyTo ∧
    (loadItemsRequest rBase f).2.itemType =
      (if f.deleted ≠ [] then
        [APType.article, APType.audio, APType.document, APType.image,
         APType.note, APType.page, APType.video]
      else f.itemType) := by
  simp only [loadItemsRequest, hfb]
  repeat' split
  all_goals simp_all

/-- C9 witness: the amended theorem applied to the concrete filter set f9. -/
theorem c9_followed_by_retarget_witness :
    (loadItemsRequest fedboxBase f9).1 = fedboxBase ++ ("/actors/" ++ "abc" ++ "/") ++ "inbox" ∧
    (loadItemsRequest fedboxBase f9).2.followedBy = [] ∧
    (loadItemsRequest fedboxBase f9).2.context = f9.context ∧
    (loadItemsRequest fedboxBase f9).2.inReplyTo = f9.inReplyTo ∧
    (loadItemsRequest fedboxBase f9).2.itemType =
      (if f9.deleted ≠ [] then
        [APType.article, APType.audio, APType.document, APType.image,
         APType.note, APType.page, APType.video]
      else f9.itemType) :=
  c9_followed_by_retarget fedboxBase f9 "abc" [] rfl

set_option maxRecDepth 100000 in
/-- C8 counterexample: a plain text body of 301 whitespace-separated tokens
(300 single spaces) is classified Note, because the code compares the count
of whitespace occurrences in the raw data with 300 instead of the token
count. -/
theorem c8_counterexample :
    wsTokens c8data = 301 ∧ wordCount c8data = 300 ∧
    (loadAPItem idRender c8item).type = APType.note := by
  refine ⟨by decide, by decide, by decide⟩

/-- C8 (amended): URL items map to Page objects whose URL is the raw data
with no content fields set; other live items are classified Article when the
raw data holds more than 300 whitespace separator occurrences (spaces, tabs,
newlines, with CRLF counted twice) and Note otherwise; markdown items carry
the raw source content and the rendered content when the data is
nonempty. -/
theorem c8_item_mapping (render : String → String) (item : Item) (hlive : item.deleted = false) :
    (item.mimeType = ContentKind.url →
      (loadAPItem render item).type = APType.page ∧
      (loadAPItem render item).url = item.data ∧
      (loadAPItem render item).content = none ∧
      (loadAPItem render item).sourceContent = none) ∧
    (item.mimeType ≠ ContentKind.url →
      (loadAPItem render item).type =
        (if wordCount item.data > 300 then APType.article else APType.note)) ∧
    (item.mimeType = ContentKind.markdown → item.data ≠ "" →
      (loadAPItem render item).sourceContent = some item.data ∧
      (loadAPItem render item).content = some (render item.data)) := by
  have hp := loadAPItemLive_preserves (loadAPItemBase render item) item
  have hli : loadAPItem render item = loadAPItemLive (loadAPItemBase render item) item := by
    simp [loadAPItem, hlive]
  obtain ⟨ht, hu, hc, hsc⟩ := hp
  rw [hli, ht, hu, hc, hsc]
  refine ⟨fun hurl => ?_, fun hnurl => ?_, fun hmd hdata => ?_⟩
  · simp only [loadAPItemBase, hurl, if_pos]
    repeat' split
    all_goals simp [emptyAPObject]
  · cases hmt : item.mimeType
    all_goals simp_all only [ne_eq]
    all_goals simp only [loadAPItemBase, hmt]
    all_goals repeat' split
    all_goals simp_all [emptyAPObject]
  · simp only [loadAPItemBase, hmd, hdata]
    repeat' split
    all_goals simp_all [emptyAPObject]

/-- C8 witness: the mapping theorem applied to the concrete plain text item
c8item. -/
theorem c8_item_mapping_witness :
    (c8item.mimeType = ContentKind.url →
      (loadAPItem idRender c8item).type = APType.page ∧
      (loadAPItem idRender c8item).url = c8item.data ∧
      (loadAPItem idRender c8item).content = none ∧
      (loadAPItem idRender c8item).sourceContent = none) ∧
    (c8item.mimeType ≠ ContentKind.url →
      (loadAPItem idRender c8item).type =
        (if wordCount c8item.data > 300 then APType.article else APType.note)) ∧
    (c8item.mimeType = ContentKind.markdown → c8item.data ≠ "" →
      (loadAPItem idRender c8item).sourceContent = some c8item.data ∧
      (loadAPItem idRender c8item).content = some (idRender c8item.data)) :=
  c8_item_mapping idRender c8item rfl

/-- The dedup loop run from an accumulator holding one net record: further
records of the same submitter only add their weights into that record. -/
theorem foldAux_single_actor (acc : Account) (c : Vote) (rest : List Vote)
    (hc : c.submittedBy = some acc)
    (hr : ∀ x ∈ rest, x.submittedBy = some acc) :
    loadVotesCollectionFoldAux [c] rest =
      some [{ c with weight := c.weight + (rest.map Vote.weight).sum }] := by
  induction rest generalizing c with
  | nil => simp [loadVotesCollectionFoldAux]
  | cons x xs ih =>
    have hx : x.submittedBy = some acc := hr x (List.mem_cons_self x xs)
    have hxs : ∀ y ∈ xs, y.submittedBy = some acc := fun y hy => hr y (List.mem_cons_of_mem x hy)
    simp only [loadVotesCollectionFoldAux, hx, addToMatching, hc]
    simpa [hc, add_assoc] using ih { c with weight := c.weight + x.weight } (by simp [hc]) hxs

/-- C6: raw activity records sharing one submitting actor collapse under the
loadVotesCollection fold to exactly one net record, the first record with its
weight replaced by the sum of all the weights. -/
theorem c6_fold_by_actor (acc : Account) (v : Vote) (rest : List Vote)
    (hv : v.submittedBy = some acc) (hrest : ∀ x ∈ rest, x.submittedBy = some acc) :
    loadVotesCollectionFold (v :: rest) =
      some [{ v with weight := ((v :: rest).map Vote.weight).sum }] := by
  have h1 := foldAux_single_actor acc v rest hv hrest
  simp only [loadVotesCollectionFold, loadVotesCollectionFoldAux, hv, addToMatching,
    List.map_cons, List.sum_cons, List.nil_append]
  simp only [hv] at h1 ⊢
  simpa using h1

/-- C6 witness: the fold theorem applied to two concrete records of the same
submitter. -/
theorem c6_fold_by_actor_witness :
    loadVotesCollectionFold [likeC5, { likeC5 with weight := 2 }] =
      some [{ likeC5 with weight := (([likeC5, { likeC5 with weight := 2 }]).map Vote.weight).sum }] :=
  c6_fold_by_actor subA likeC5 [{ likeC5 with weight := 2 }] rfl
    (by intro x hx; rw [List.mem_singleton] at hx; subst hx; rfl)

/-- C4 (amended): a vote whose submitter or item is missing, or carries no
federation metadata record, makes SaveVote return the zero vote and a local
validation error with an empty trace: no network call is issued. -/
theorem c4_validation_short_circuit (render : String → String) (env : SaveVoteEnv)
    (racc : Option Account) (v : Vote)
    (h : v.submittedBy = none ∨ (∃ sb, v.submittedBy = some sb ∧ sb.metadata = none) ∨
         v.item = none ∨ (∃ it, v.item = some it ∧ it.metadata = none)) :
    ∃ msg, saveVote render env racc v =
      some { trace := [], vote := zeroVote, err := some (RepoErr.validation msg) } := by
  rcases h with h | ⟨sb, hsb, hm⟩ | h | ⟨it, hit, hm⟩
  · exact ⟨"Invalid vote submitter", by simp [saveVote, h]⟩
  · exact ⟨"Invalid vote submitter", by simp [saveVote, hsb, hm]⟩
  · cases hsb : v.submittedBy with
    | none => exact ⟨"Invalid vote submitter", by simp [saveVote, hsb]⟩
    | some sb =>
      cases hm : sb.metadata with
      | none => exact ⟨"Invalid vote submitter", by simp [saveVote, hsb, hm]⟩
      | some m => exact ⟨"Invalid vote item", by simp [saveVote, hsb, hm, h]⟩
  · cases hsb : v.submittedBy with
    | none => exact ⟨"Invalid vote submitter", by simp [saveVote, hsb]⟩
    | some sb =>
      cases hmm : sb.metadata with
      | none => exact ⟨"Invalid vote submitter", by simp [saveVote, hsb, hmm]⟩
      | some m => exact ⟨"Invalid vote item", by simp [saveVote, hsb, hmm, hit, hm]⟩

/-- C4 witness: the validation theorem applied to the zero vote, which has no
submitter. -/
theorem c4_validation_short_circuit_witness :
    ∃ msg, saveVote idRender env4 (some subA) zeroVote =
      some { trace := [], vote := zeroVote, err := some (RepoErr.validation msg) } :=
  c4_validation_short_circuit idRender env4 (some subA) zeroVote (Or.inl rfl)

/-- C4 counterexample: a vote on an item whose metadata record is present but
whose remote id is empty (so the item has no resolvable remote identifier)
passes validation, and SaveVote issues a GET to the unresolvable URL built
from the empty id and then posts the vote, returning no validation error. -/
theorem c4_counterexample :
    item4.metadata = some { id := "", mentions := [], tags := [] } ∧
    ((saveVote idRender env4 (some subA) v4).map SaveVoteOut.trace) =
      some [NetEvent.get "/likes", NetEvent.post outboxA likeAct4] ∧
    ((saveVote idRender env4 (some subA) v4).map SaveVoteOut.err) = some none :=
  ⟨rfl, rfl, rfl⟩

/-- The weight branches preserve the id of the activity they start from. -/
theorem saveVoteFinalAct_id (u : Activity) (o : String) (w e : Int) :
    (saveVoteFinalAct u o w e).id = u.id := by
  unfold saveVoteFinalAct
  repeat' split
  all_goals rfl

/-- The final activity is Like-typed exactly when the new weight is positive
and the existing weight is not. -/
theorem saveVoteFinalAct_like_iff (u : Activity) (o : String) (w e : Int)
    (hu : u.type = APType.undo) :
    ((saveVoteFinalAct u o w e).type = APType.like ↔ (w > 0 ∧ e ≤ 0)) := by
  unfold saveVoteFinalAct
  rcases Classical.em (w > 0 ∧ e ≤ 0) with h1 | h1 <;>
    rcases Classical.em (w < 0 ∧ e ≥ 0) with h2 | h2
  · exact absurd h2.1 (by omega)
  · rw [if_neg h2, if_pos h1]
    simp [hu]
    omega
  · rw [if_pos h2]
    simp [hu]
    omega
  · rw [if_neg h2, if_neg h1]
    simp [hu]
    omega

/-- The final activity is Dislike-typed exactly when the new weight is
negative and the existing weight is not. -/
theorem saveVoteFinalAct_dislike_iff (u : Activity) (o : String) (w e : Int)
    (hu : u.type = APType.undo) :
    ((saveVoteFinalAct u o w e).type = APType.dislike ↔ (w < 0 ∧ e ≥ 0)) := by
  unfold saveVoteFinalAct
  rcases Classical.em (w > 0 ∧ e ≤ 0) with h1 | h1 <;>
    rcases Classical.em (w < 0 ∧ e ≥ 0) with h2 | h2
  · exact absurd h2.1 (by omega)
  · rw [if_neg h2, if_pos h1]
    simp [hu]
    omega
  · rw [if_pos h2]
    simp [hu]
    omega
  · rw [if_neg h2, if_neg h1]
    simp [hu]
    omega

/-- Every activity SaveVote posts is either the Undo it built or the final
activity; the sign gating follows from the two iff lemmas. -/
theorem saveVotePost_cases (w e : Int) (undoA : Activity) (o : String) (a : Activity)
    (hu : undoA.type = APType.undo)
    (ha : a = undoA ∨ a = saveVoteFinalAct undoA o w e) :
    (a.type = APType.like → w > 0 ∧ e ≤ 0) ∧
    (a.type = APType.dislike → w < 0 ∧ e ≥ 0) ∧
    (((w > 0 ∧ e > 0) ∨ (w < 0 ∧ e < 0)) → a.type ≠ APType.like ∧ a.type ≠ APType.dislike) := by
  rcases ha with rfl | rfl
  · simp [hu]
  · have hl := saveVoteFinalAct_like_iff undoA o w e hu
    have hd := saveVoteFinalAct_dislike_iff undoA o w e hu
    refine ⟨fun h => hl.mp h, fun h => hd.mp h, fun hsame => ⟨fun h => ?_, fun h => ?_⟩⟩
    · have := hl.mp h
      rcases hsame with ⟨hp, hq⟩ | ⟨hp, hq⟩ <;> omega
    · have := hd.mp h
      rcases hsame with ⟨hp, hq⟩ | ⟨hp, hq⟩ <;> omega

/-- The effective existing weight SaveVote works with equals the fold of the
likes collection it fetched. -/
theorem saveVoteExistingFor_eq (env : SaveVoteEnv) (h : String) (iv : List Vote)
    (heq : (match env.likesResp with
            | none => some []
            | some raw => loadVotesCollectionFold raw) = some iv) :
    saveVoteExistingFor env h = findExistingVote iv h := by
  unfold saveVoteExistingFor
  cases hl : env.likesResp with
  | none =>
    rw [hl] at heq
    simp at heq
    subst heq
    rfl
  | some raw =>
    rw [hl] at heq
    simp at heq
    simp [heq]

/-- C2: in every completed SaveVote run, a posted Like activity requires a
positive new weight against a non-positive existing effective weight, a
posted Dislike a negative new weight against a non-negative existing
effective weight, and a new weight of the same nonzero sign as the existing
effective weight makes every posted activity neither Like nor Dislike. -/
theorem c2_vote_sign_gating (render : String → String) (env : SaveVoteEnv)
    (racc : Option Account) (v : Vote) (sb : Account) (out : SaveVoteOut)
    (u : String) (a : Activity)
    (hsb : v.submittedBy = some sb)
    (hout : saveVote render env racc v = some out)
    (hmem : NetEvent.post u a ∈ out.trace) :
    (a.type = APType.like →
      v.weight > 0 ∧ (saveVoteExistingFor env sb.hash).weight ≤ 0) ∧
    (a.type = APType.dislike →
      v.weight < 0 ∧ (saveVoteExistingFor env sb.hash).weight ≥ 0) ∧
    (((v.weight > 0 ∧ (saveVoteExistingFor env sb.hash).weight > 0) ∨
      (v.weight < 0 ∧ (saveVoteExistingFor env sb.hash).weight < 0)) →
      a.type ≠ APType.like ∧ a.type ≠ APType.dislike) := by
  simp only [saveVote, hsb] at hout
  split at hout
  · obtain rfl := Option.some.inj hout
    simp at hmem
  · split at hout
    · obtain rfl := Option.some.inj hout
      simp at hmem
    · split at hout
      · obtain rfl := Option.some.inj hout
        simp at hmem
      · simp only [saveVoteMain] at hout
        split at hout
        · simp at hout
        · rename_i itemVotes heq1
          have hex := saveVoteExistingFor_eq env sb.hash itemVotes heq1
          rw [hex]
          split at hout
          · simp at hout
          · rename_i trace1 heq2
            obtain rfl := Option.some.inj hout
            have htr1 : ∀ uu aa, NetEvent.post uu aa ∈ trace1 →
                aa = saveVoteUndoAct racc v sb := by
              intro uu aa hin
              split at heq2
              · split at heq2
                · exact absurd heq2 (by simp)
                · split at heq2
                  · obtain rfl := Option.some.inj heq2
                    simp at hin
                    exact hin.2
                  · obtain rfl := Option.some.inj heq2
                    simp at hin
                    exact hin.2
              · obtain rfl := Option.some.inj heq2
                simp at hin
            simp only [List.mem_append, List.mem_singleton] at hmem
            have hdisj : a = saveVoteUndoAct racc v sb ∨
                ∃ oo, a = saveVoteFinalAct (saveVoteUndoAct racc v sb) oo v.weight
                  (findExistingVote itemVotes sb.hash).weight := by
              rcases hmem with (h0 | h1) | h2
              · cases henv : env.likesResp <;> simp [henv] at h0
              · exact Or.inl (htr1 u a h1)
              · simp at h2
                exact Or.inr ⟨_, h2.2⟩
            rcases hdisj with hda | ⟨oo, hda⟩
            · exact saveVotePost_cases v.weight (findExistingVote itemVotes sb.hash).weight
                (saveVoteUndoAct racc v sb) "" a rfl (Or.inl hda)
            · exact saveVotePost_cases v.weight (findExistingVote itemVotes sb.hash).weight
                (saveVoteUndoAct racc v sb) oo a rfl (Or.inr hda)

/-- C2 witness: the sign gating theorem applied to the Like POST that
SaveVote emits for v4 under env4. -/
theorem c2_vote_sign_gating_witness :
    (likeAct4.type = APType.like →
      v4.weight > 0 ∧ (saveVoteExistingFor env4 subA.hash).weight ≤ 0) ∧
    (likeAct4.type = APType.dislike →
      v4.weight < 0 ∧ (saveVoteExistingFor env4 subA.hash).weight ≥ 0) ∧
    (((v4.weight > 0 ∧ (saveVoteExistingFor env4 subA.hash).weight > 0) ∨
      (v4.weight < 0 ∧ (saveVoteExistingFor env4 subA.hash).weight < 0)) →
      likeAct4.type ≠ APType.like ∧ likeAct4.type ≠ APType.dislike) :=
  c2_vote_sign_gating idRender env4 (some subA) v4 subA out4 outboxA likeAct4
    rfl rfl (by simp [out4])

/-- C1 counterexample: under a 200 response whose body carries the canonical
activity with the server-assigned id, SaveVote returns a vote whose metadata
iri is empty, not the vote reconstructed from the server representation. -/
theorem c1_counterexample :
    ((saveVote idRender envC1 (some subA) voteA).map fun o => o.vote) =
      some { weight := 1, submittedBy := none, item := none,
             metadata := some { iri := "", originalIri := "" } } ∧
    specSaveVoteSuccess envC1 =
      some { weight := 1, submittedBy := none, item := none,
             metadata := some { iri := "http://fedbox.git/activities/42", originalIri := "" } } ∧
    ((saveVote idRender envC1 (some subA) voteA).map fun o => o.vote) ≠ specSaveVoteSuccess envC1 := by
  refine ⟨rfl, rfl, by decide⟩

/-- C1 (amended): on a 200 or 201 final response the vote is reconstructed
from the locally built activity of the final POST, whose id field is empty
(never assigned), so no server-assigned activity id is carried; on any other
status the error translator result for the response body is returned as the
error and the input vote is returned unchanged. -/
theorem c1_response_handling (render : String → String) (env : SaveVoteEnv)
    (racc : Option Account) (v : Vote) (out : SaveVoteOut) (st : Nat)
    (sb : Account) (msb : AccountMeta) (it : Item) (mit : ItemMeta)
    (hsb : v.submittedBy = some sb) (hmsb : sb.metadata = some msb)
    (hit : v.item = some it) (hmit : it.metadata = some mit)
    (hout : saveVote render env racc v = some out)
    (hst : env.finalStatus = some st) :
    ((st = 200 ∨ st = 201) →
      out.err = none ∧
      ∃ u a, out.trace.getLast? = some (NetEvent.post u a) ∧ a.id = "" ∧
        out.vote = voteFromActivityPub a) ∧
    (¬(st = 200 ∨ st = 201) →
      out.err = (handlerErrorResponse env.finalErrs).1 ∧ out.vote = v) := by
  simp only [saveVote, hsb, hmsb, hit, hmit] at hout
  simp only [saveVoteMain, hst] at hout
  split at hout
  · simp at hout
  · split at hout
    · simp at hout
    · obtain rfl := Option.some.inj hout
      by_cases hgood : st = 200 ∨ st = 201
      · refine ⟨fun _ => ⟨by simp [hgood], _, _, List.getLast?_concat _,
          saveVoteFinalAct_id _ _ _ _, by simp [hgood]⟩, fun hbad => absurd hgood hbad⟩
      · exact ⟨fun hg => absurd hg hgood, fun _ => ⟨by simp [hgood], by simp [hgood]⟩⟩

/-- C1 witness: the response handling theorem applied to voteA under envC1,
whose final POST is answered 200. -/
theorem c1_response_handling_witness :
    ((200 = 200 ∨ 200 = 201) →
      outC1.err = none ∧
      ∃ u a, outC1.trace.getLast? = some (NetEvent.post u a) ∧ a.id = "" ∧
        outC1.vote = voteFromActivityPub a) ∧
    (¬(200 = 200 ∨ 200 = 201) →
      outC1.err = (handlerErrorResponse envC1.finalErrs).1 ∧ outC1.vote = voteA) :=
  c1_response_handling idRender envC1 (some subA) voteA outC1 200 subA
    { id := "", inboxIRI := "", outboxIRI := "" } itemA
    { id := "http://fedbox.git/objects/itemhash", mentions := [], tags := [] }
    rfl rfl rfl rfl rfl rfl

/-- C3: with an existing effective vote carrying the stored activity id
activities/7, and the new sign-flipped vote carrying its own fresh metadata
iri, SaveVote posts the Undo (with object equal to the new vote metadata
iri, not the stored id) before the Dislike; when the undo POST is rejected
with 403 no log line is emitted, and when it is accepted with 200 the line
"unable to undo previous vote" is logged: the status check of the undo
response is inverted. -/
theorem c3_undo_log_inverted :
    ((saveVote idRender env3r (some subA) v3).map SaveVoteOut.trace) =
      some [NetEvent.get likesA, NetEvent.post outboxA undoAct3, NetEvent.post outboxA dislikeAct3] ∧
    ((saveVote idRender env3s (some subA) v3).map SaveVoteOut.trace) =
      some [NetEvent.get likesA, NetEvent.post outboxA undoAct3,
            NetEvent.logError "unable to undo previous vote", NetEvent.post outboxA dislikeAct3] ∧
    undoAct3.objectIri = "new-vote-iri" ∧
    exVote.metadata = some { iri := "http://fedbox.git/activities/7", originalIri := "" } ∧
    "new-vote-iri" ≠ "http://fedbox.git/activities/7" := by
  refine ⟨rfl, rfl, rfl, rfl, by decide⟩

/-- C5 counterexample: a collection holding exactly a Like followed by the
zero-weight Undo that targets it reconciles to the empty vote set: the
count drops by two relative to the raw record count, not by one. -/
theorem c5_counterexample :
    loadVotesReconcile [likeC5, undoC5] = some [] ∧ [likeC5, undoC5].length = 2 :=
  ⟨rfl, rfl⟩

/-- The removal loop leaves the visible slice untouched when no element from
the current index onward matches the undo target. -/
theorem undoLoop_no_match (t : String) : ∀ (fuel : Nat) (arr : List Vote) (l i : Nat),
    (∀ x ∈ arr.drop i, undoTargets t x = false) →
    undoLoopAux t fuel arr l i = some (arr.take l) := by
  intro fuel
  induction fuel with
  | zero => intro arr l i _; rfl
  | succ f ih =>
    intro arr l i h
    unfold undoLoopAux
    cases hg : arr[i]? with
    | none => rfl
    | some vot =>
      have hvot : vot ∈ arr.drop i := by
        apply List.getElem?_mem (n := 0)
        rw [List.getElem?_drop]
        simpa using hg
      simp only [h vot hvot, Bool.false_eq_true, if_false]
      apply ih
      intro x hx
      apply h
      have hdd : arr.drop (i + 1) = (arr.drop i).drop 1 := by
        rw [List.drop_drop]
      rw [hdd] at hx
      exact List.drop_subset _ _ hx

/-- The removal loop walks over a non-matching segment without changing the
array or the visible length. -/
theorem undoLoop_walk (t : String) (k : Nat) : ∀ (fuel : Nat) (arr : List Vote) (l i : Nat),
    fuel + i = arr.length → i ≤ k → k ≤ arr.length →
    (∀ j (hj : j < arr.length), i ≤ j → j < k → undoTargets t (arr.get ⟨j, hj⟩) = false) →
    undoLoopAux t fuel arr l i = undoLoopAux t (arr.length - k) arr l k := by
  intro fuel
  induction fuel with
  | zero =>
    intro arr l i hfi hik hk _
    have hieq : i = arr.length := by omega
    have hk2 : k = arr.length := by omega
    subst hieq
    rw [hk2]
    simp
  | succ f ih =>
    intro arr l i hfi hik hk hnm
    rcases Nat.eq_or_lt_of_le hik with rfl | hlt
    · have hfk : arr.length - i = f + 1 := by omega
      rw [hfk]
    · have hiv : i < arr.length := by omega
      have hcur : undoTargets t arr[i] = false := hnm i hiv (le_refl i) hlt
      conv_lhs => rw [undoLoopAux]
      rw [List.getElem?_eq_getElem hiv]
      simp only [hcur, Bool.false_eq_true, if_false]
      apply ih
      · omega
      · omega
      · exact hk
      · intro j hj h1 h2
        exact hnm j hj (by omega) h2

/-- A full run of the removal loop over a vote list holding exactly one
matching element removes exactly that element: the loop walks the
non-matching head, removes the match (shifting the tail left over the fixed
underlying array and leaving the stale duplicate of the last element beyond
the visible length), and finds no further match among the shifted tail. -/
theorem undoLoop_single_match (t : String) (A B : List Vote) (L : Vote)
    (hA : ∀ x ∈ A, undoTargets t x = false)
    (hB : ∀ x ∈ B, undoTargets t x = false)
    (hL : undoTargets t L = true) :
    undoLoopAux t (A ++ L :: B).length (A ++ L :: B) (A ++ L :: B).length 0 = some (A ++ B) := by
  have hnm : ∀ j (hj : j < (A ++ L :: B).length), 0 ≤ j → j < A.length →
      undoTargets t ((A ++ L :: B).get ⟨j, hj⟩) = false := by
    intro j hj _ hjA
    have hget : (A ++ L :: B).get ⟨j, hj⟩ = A.get ⟨j, hjA⟩ := List.getElem_append_left hjA
    rw [hget]
    exact hA _ (List.getElem_mem hjA)
  rw [undoLoop_walk t A.length (A ++ L :: B).length (A ++ L :: B) (A ++ L :: B).length 0
    (by omega) (by omega) (by simp) hnm]
  rw [show (A ++ L :: B).length - A.length = B.length + 1 by simp]
  conv_lhs => rw [undoLoopAux]
  have hgetL : (A ++ L :: B)[A.length]? = some L := by
    rw [List.getElem?_append_right (le_refl A.length)]
    simp
  rw [hgetL]
  simp only [hL, if_true]
  rw [if_pos (show A.length + 1 ≤ (A ++ L :: B).length by simp)]
  have hsr : shiftRemove (A ++ L :: B) A.length
      = (A ++ B) ++ [(L :: B).getLast (List.cons_ne_nil L B)] := by
    unfold shiftRemove
    have h1 : (A ++ L :: B).take A.length = A := List.take_left A (L :: B)
    have h2 : (A ++ L :: B).drop (A.length + 1) = B := by
      rw [show A ++ L :: B = (A ++ [L]) ++ B by simp,
          show A.length + 1 = (A ++ [L]).length by simp]
      exact List.drop_left _ _
    have h3 : (A ++ L :: B).getLast? = some ((L :: B).getLast (List.cons_ne_nil L B)) := by
      rw [List.getLast?_append, List.getLast?_eq_getLast (L :: B) (List.cons_ne_nil L B)]
      rfl
    rw [h1, h2, h3]
    simp
  rw [hsr]
  cases B with
  | nil =>
    simp only [List.length_nil]
    conv_lhs => rw [undoLoopAux]
    simp
  | cons b B2 =>
    rw [undoLoop_no_match t (b :: B2).length
      ((A ++ b :: B2) ++ [(L :: b :: B2).getLast (List.cons_ne_nil L (b :: B2))])
      ((A ++ L :: b :: B2).length - 1) (A.length + 1) ?hdrop]
    · have hlen2 : (A ++ L :: b :: B2).length - 1 = (A ++ b :: B2).length := by
        simp
      rw [hlen2, List.take_left]
    case hdrop =>
      intro x hx
      have hdp : ((A ++ b :: B2) ++ [(L :: b :: B2).getLast (List.cons_ne_nil L (b :: B2))]).drop (A.length + 1)
          = B2 ++ [(L :: b :: B2).getLast (List.cons_ne_nil L (b :: B2))] := by
        rw [show (A ++ b :: B2) ++ [(L :: b :: B2).getLast (List.cons_ne_nil L (b :: B2))]
            = (A ++ [b]) ++ (B2 ++ [(L :: b :: B2).getLast (List.cons_ne_nil L (b :: B2))]) by simp,
            show A.length + 1 = (A ++ [b]).length by simp]
        exact List.drop_left _ _
      rw [hdp] at hx
      rcases List.mem_append.mp hx with hx2 | hx2
      · exact hB x (List.mem_cons_of_mem b hx2)
      · rw [List.mem_singleton.mp hx2]
        have hlast : (L :: b :: B2).getLast (List.cons_ne_nil L (b :: B2))
            = (b :: B2).getLast (List.cons_ne_nil b B2) := List.getLast_cons (List.cons_ne_nil b B2)
        rw [hlast]
        exact hB _ (List.getLast_mem (List.cons_ne_nil b B2))

/-- The partition phase passes a block of nonzero-weight records straight
into the open vote list. -/
theorem loadVotesPartition_nonzero_append (l r : List Vote) (h : ∀ x ∈ l, x.weight ≠ 0) :
    loadVotesPartition (l ++ r) = (l ++ (loadVotesPartition r).1, (loadVotesPartition r).2) := by
  induction l with
  | nil => simp
  | cons x xs ih =>
    have hx : x.weight ≠ 0 := h x (List.mem_cons_self x xs)
    have hxs : ∀ y ∈ xs, y.weight ≠ 0 := fun y hy => h y (List.mem_cons_of_mem x hy)
    simp only [List.cons_append, loadVotesPartition, List.append_eq]
    rw [ih hxs]
    simp [hx]

/-- C5 (amended): reconciling a collection of nonzero Like and Dislike
records containing one Like whose activity id matches the one zero-weight
Undo in the collection removes exactly that Like, and the Undo itself never
enters the result: the result count decreases by exactly two relative to the
raw record count (equivalently, by exactly one relative to the count of
nonzero records). -/
theorem c5_undo_reconciliation (t : String) (A B : List Vote) (L U : Vote) (mL mU : VoteMeta)
    (hA : ∀ v ∈ A, undoTargets t v = false ∧ v.weight ≠ 0)
    (hB : ∀ v ∈ B, undoTargets t v = false ∧ v.weight ≠ 0)
    (hLw : L.weight ≠ 0) (hLm : L.metadata = some mL) (hLi : mL.iri = t) (ht : t ≠ "")
    (hUw : U.weight = 0) (hUm : U.metadata = some mU) (hUo : mU.originalIri = t) :
    loadVotesReconcile (A ++ L :: (B ++ [U])) = some (A ++ B) ∧
    (A ++ B).length + 2 = (A ++ L :: (B ++ [U])).length := by
  constructor
  · unfold loadVotesReconcile
    have hU : loadVotesPartition [U] = ([], [U]) := by
      simp only [loadVotesPartition, hUw, hUm]
      rw [hUo]
      simp [ht]
    have hBU : loadVotesPartition (B ++ [U]) = (B, [U]) := by
      rw [loadVotesPartition_nonzero_append B _ (fun x hx => (hB x hx).2), hU]
      simp
    have hpart : loadVotesPartition (A ++ L :: (B ++ [U])) = (A ++ L :: B, [U]) := by
      rw [loadVotesPartition_nonzero_append A _ (fun x hx => (hA x hx).2)]
      simp only [loadVotesPartition, hBU]
      simp [hLw]
    rw [hpart]
    have hau : applyUndo (A ++ L :: B) U
        = if mU.originalIri = "" then some (A ++ L :: B)
          else undoLoopAux mU.originalIri (A ++ L :: B).length (A ++ L :: B) (A ++ L :: B).length 0 := by
      unfold applyUndo
      rw [hUm]
    have happly : applyUndo (A ++ L :: B) U = some (A ++ B) := by
      rw [hau, hUo, if_neg ht]
      exact undoLoop_single_match t A B L (fun x hx => (hA x hx).1) (fun x hx => (hB x hx).1)
        (by simp [undoTargets, hLm, hLi, ht])
    simp [List.foldlM, happly]
  · simp
    omega

/-- C5 witness: the reconciliation theorem applied to a concrete collection
of one unrelated Dislike, the matched Like and its Undo. -/
theorem c5_undo_reconciliation_witness :
    loadVotesReconcile ([likeOtherB] ++ likeC5 :: ([] ++ [undoC5])) = some ([likeOtherB] ++ []) ∧
    ([likeOtherB] ++ []).length + 2 = ([likeOtherB] ++ likeC5 :: ([] ++ [undoC5])).length :=
  c5_undo_reconciliation "like-1" [likeOtherB] [] likeC5 undoC5
    { iri := "like-1", originalIri := "" } { iri := "", originalIri := "like-1" }
    (by decide) (by decide) (by decide) rfl rfl (by decide) rfl rfl rfl

end Littr
